import Mathlib

/-!
# Verification of the IMEI batch submission and reconciliation engine

Shallow embedding of the core subsystems of the IMEI_PROCESSOR repository:

* `Chunker` — `ProductionSubmissionSystem._chunk_imeis` (production_submission_system.py)
* `Dispatcher` — `ProductionSubmissionSystem._submit_batch_with_retry` and the
  aggregation in `ProductionSubmissionSystem.submit_batch`
* `BatchProcessor._process_with_retry` / `process_order` (batch_processor.py)
* `Persistence Adapter` — `IMEIDatabase._insert_order_sqlite`,
  `IMEIDatabase._insert_order_postgres`, `IMEIDatabase.update_order_status`
  (database.py)
* `Result Parser` — `IMEIDataParser.parse` and its helpers (imei_data_parser.py),
  including a faithful model of the Python regular expressions it uses
* `Reconciliation` — `sync_and_parse_orders` (web_app.py) and `manual_sync`
  (manual_sync.py)

Machine integers do not occur on the verified paths; Python ints are `Nat`,
Python floats used only as retry delays are `ℚ`.  Wall-clock timestamps and
log output are not modelled.
-/

namespace IMEIProc

/-! ## Chunker

`ProductionSubmissionSystem._chunk_imeis`:
`return [imeis[i:i + self.batch_size] for i in range(0, len(imeis), self.batch_size)]`.
The slice `imeis[i:i+C]` is `take C` of `drop i`, and stepping `i` by `C`
is the recursion below.  Python raises `ValueError` for a zero step; the
theorems assume `0 < C` (the system is built with `batch_size = 100`). -/

/-- The comprehension's loop, with enough fuel to cover all iterations
(each iteration consumes at least one element when `0 < C`). -/
def chunkGo (C : Nat) : Nat → List String → List (List String)
  | 0, _ => []
  | fuel + 1, l => if l = [] then [] else l.take C :: chunkGo C fuel (l.drop C)

def chunk_imeis (C : Nat) (l : List String) : List (List String) :=
  if C = 0 then [] else chunkGo C l.length l

theorem chunkGo_join (C : Nat) (hC : 0 < C) :
    ∀ fuel l, l.length ≤ fuel → (chunkGo C fuel l : List (List String)).flatten = l := by
  intro fuel
  induction fuel with
  | zero =>
    intro l hl
    have : l = [] := List.eq_nil_of_length_eq_zero (by omega)
    simp [this, chunkGo]
  | succ fuel ih =>
    intro l hl
    by_cases h : l = []
    · simp [h, chunkGo]
    · have hlen : (l.drop C).length ≤ fuel := by
        have : 0 < l.length := List.length_pos.mpr h
        simp only [List.length_drop]; omega
      simp [chunkGo, h, ih (l.drop C) hlen, List.take_append_drop]

theorem chunkGo_length (C : Nat) (hC : 0 < C) :
    ∀ fuel l, l.length ≤ fuel →
      (chunkGo C fuel l : List (List String)).length = (l.length + C - 1) / C := by
  intro fuel
  induction fuel with
  | zero =>
    intro l hl
    have : l = [] := List.eq_nil_of_length_eq_zero (by omega)
    subst this
    have h4 : C - 1 < C := by omega
    simp [chunkGo, Nat.div_eq_of_lt h4]
  | succ fuel ih =>
    intro l hl
    by_cases h : l = []
    · have h4 : C - 1 < C := by omega
      simp [h, chunkGo, Nat.div_eq_of_lt h4]
    · have hpos : 0 < l.length := List.length_pos.mpr h
      have hlen : (l.drop C).length ≤ fuel := by
        simp only [List.length_drop]; omega
      simp only [chunkGo, if_neg h, List.length_cons, ih (l.drop C) hlen,
        List.length_drop]
      have h1 : l.length + C - 1 = (l.length - 1) + C := by omega
      rw [h1, Nat.add_div_right _ hC]
      rcases Nat.lt_or_ge l.length C with hlt | hge
      · have h2 : l.length - C = 0 := by omega
        have h3 : l.length - 1 < C := by omega
        have h4 : C - 1 < C := by omega
        rw [h2, Nat.div_eq_of_lt h3]
        simp [Nat.div_eq_of_lt h4]
      · have h2 : l.length - C + C - 1 = l.length - 1 := by omega
        rw [h2]

theorem chunk_imeis_join (C : Nat) (l : List String) (hC : 0 < C) :
    (chunk_imeis C l).flatten = l := by
  unfold chunk_imeis
  rw [if_neg (by omega)]
  exact chunkGo_join C hC l.length l le_rfl

theorem chunk_imeis_length (C : Nat) (l : List String) (hC : 0 < C) :
    (chunk_imeis C l).length = (l.length + C - 1) / C := by
  unfold chunk_imeis
  rw [if_neg (by omega)]
  exact chunkGo_length C hC l.length l le_rfl

/-- C5: for every identifier list and every chunk size `C > 0`, the chunks
produced by `_chunk_imeis` concatenate in order to exactly the original list,
and there are exactly `⌈N/C⌉` of them.  (The function is deterministic by
construction: it is a pure function of its arguments.) -/
theorem chunker_partitions (C : Nat) (l : List String) (hC : 0 < C) :
    (chunk_imeis C l).flatten = l ∧
    (chunk_imeis C l).length = (l.length + C - 1) / C :=
  ⟨chunk_imeis_join C l hC, chunk_imeis_length C l hC⟩

/-- Witness for `chunker_partitions` at `C = 2`, a three-element list:
two chunks that concatenate back to the input. -/
theorem chunker_partitions_witness :
    (0 : Nat) < 2 ∧
    ((chunk_imeis 2 ["a", "b", "c"]).flatten = ["a", "b", "c"] ∧
     (chunk_imeis 2 ["a", "b", "c"]).length = (3 + 2 - 1) / 2) :=
  ⟨by decide, chunker_partitions 2 ["a", "b", "c"] (by decide)⟩

/-! ## Dispatcher: per-chunk submission with retry

`ProductionSubmissionSystem._submit_batch_with_retry` (production_submission_system.py,
lines 130–223).  Each attempt either returns a parsed API response
(`orders`, `duplicates`, `errors`) or raises; `GSMFusionAPIError` and any
other exception follow the same retry/backoff logic and differ only in the
final error message prefix.  The environment function `att` gives the outcome
of each attempt.  The third component of the result records the `time.sleep`
delays performed, in order (`delay = self.retry_delay * (2 ** attempt)`). -/

structure ApiOrder where
  id : String
  imei : String
  status : String
deriving DecidableEq

structure ChunkResponse where
  orders : List ApiOrder
  duplicates : List String
  errors : List String
deriving DecidableEq

structure ErrorRecord where
  batch_id : String
  imeis : List String
  error : String
deriving DecidableEq

inductive AttemptOutcome where
  | success (resp : ChunkResponse)
  | apiError (msg : String)
  | unexpectedError (msg : String)
deriving DecidableEq

/-- The `for attempt in range(self.max_retries)` loop of
`_submit_batch_with_retry`, entered at loop index `attempt`; the fuel
argument only bounds the recursion (each iteration advances `attempt`,
so `maxRetries` fuel covers the range).
Returns `(successful_orders, error_details, sleeps)`. -/
def submitRetryGo (maxRetries : Nat) (retryDelay : ℚ) (batchId : String)
    (imeiBatch : List String) (att : Nat → AttemptOutcome) :
    Nat → Nat → List ApiOrder × List ErrorRecord × List ℚ
  | 0, _ => ([], [], [])
  | fuel + 1, attempt =>
    if maxRetries ≤ attempt then
      ([], [], [])  -- the `# Should never reach here` fallthrough (and the empty range)
    else
      match att attempt with
      | .success resp =>
          (resp.orders, resp.errors.map (fun m => ⟨batchId, imeiBatch, m⟩), [])
      | .apiError msg =>
          if attempt < maxRetries - 1 then
            let rest := submitRetryGo maxRetries retryDelay batchId imeiBatch att
              fuel (attempt + 1)
            (rest.1, rest.2.1, retryDelay * 2 ^ attempt :: rest.2.2)
          else
            ([], [⟨batchId, imeiBatch, "Max retries exhausted: " ++ msg⟩], [])
      | .unexpectedError msg =>
          if attempt < maxRetries - 1 then
            let rest := submitRetryGo maxRetries retryDelay batchId imeiBatch att
              fuel (attempt + 1)
            (rest.1, rest.2.1, retryDelay * 2 ^ attempt :: rest.2.2)
          else
            ([], [⟨batchId, imeiBatch, "Unexpected error: " ++ msg⟩], [])

def submit_batch_with_retry (maxRetries : Nat) (retryDelay : ℚ) (batchId : String)
    (imeiBatch : List String) (att : Nat → AttemptOutcome) :
    List ApiOrder × List ErrorRecord × List ℚ :=
  submitRetryGo maxRetries retryDelay batchId imeiBatch att maxRetries 0

/-- Every sleep performed by the retry loop entered at index `a` follows
`delay = retry_delay * (2 ** attempt)`: the `i`-th recorded sleep (0-based)
is `retryDelay * 2 ^ (a + i)`, for any fuel. -/
theorem submitRetryGo_sleeps (maxRetries : Nat) (retryDelay : ℚ) (batchId : String)
    (imeiBatch : List String) (att : Nat → AttemptOutcome) :
    ∀ fuel a i,
      i < (submitRetryGo maxRetries retryDelay batchId imeiBatch att fuel a).2.2.length →
      (submitRetryGo maxRetries retryDelay batchId imeiBatch att fuel a).2.2.get? i =
        some (retryDelay * 2 ^ (a + i)) := by
  intro fuel
  induction fuel with
  | zero =>
    intro a i hi
    simp [submitRetryGo] at hi
  | succ fuel ih =>
    intro a i hi
    rw [submitRetryGo] at hi ⊢
    by_cases hle : maxRetries ≤ a
    · simp only [if_pos hle] at hi; simp at hi
    · simp only [if_neg hle] at hi ⊢
      cases hatt : att a with
      | success resp => simp [hatt] at hi
      | apiError msg =>
        simp only [hatt] at hi ⊢
        by_cases hlt : a < maxRetries - 1
        · simp only [if_pos hlt] at hi ⊢
          cases i with
          | zero => simp
          | succ i =>
            simp only [List.length_cons, Nat.succ_lt_succ_iff] at hi
            have := ih (a + 1) i hi
            simp only [List.get?_cons_succ, this]
            ring_nf
        · simp only [if_neg hlt] at hi; simp at hi
      | unexpectedError msg =>
        simp only [hatt] at hi ⊢
        by_cases hlt : a < maxRetries - 1
        · simp only [if_pos hlt] at hi ⊢
          cases i with
          | zero => simp
          | succ i =>
            simp only [List.length_cons, Nat.succ_lt_succ_iff] at hi
            have := ih (a + 1) i hi
            simp only [List.get?_cons_succ, this]
            ring_nf
        · simp only [if_neg hlt] at hi; simp at hi

/-- If every attempt from `a` up to `maxRetries` fails, the loop entered at
`a` (with enough fuel to reach `maxRetries`) returns no orders and a single
error record carrying the whole chunk. -/
theorem submitRetryGo_exhausted (maxRetries : Nat) (retryDelay : ℚ) (batchId : String)
    (imeiBatch : List String) (att : Nat → AttemptOutcome) :
    ∀ fuel a, maxRetries - a ≤ fuel → a < maxRetries →
      (∀ j, a ≤ j → j < maxRetries →
        (∃ msg, att j = .apiError msg ∨ att j = .unexpectedError msg)) →
      (submitRetryGo maxRetries retryDelay batchId imeiBatch att fuel a).1 = [] ∧
      ((submitRetryGo maxRetries retryDelay batchId imeiBatch att fuel a).2.1.map
        (fun e => e.imeis)) = [imeiBatch] := by
  intro fuel
  induction fuel with
  | zero => intro a hk ha _; omega
  | succ fuel ih =>
    intro a hk ha hfail
    obtain ⟨msg, hmsg⟩ := hfail a (le_refl a) ha
    rw [submitRetryGo]
    simp only [if_neg (by omega : ¬ maxRetries ≤ a)]
    by_cases hlt : a < maxRetries - 1
    · have hrec := ih (a + 1) (by omega) (by omega)
        (fun j hj1 hj2 => hfail j (by omega) hj2)
      rcases hmsg with h | h <;> simp only [h, if_pos hlt] <;> exact hrec
    · rcases hmsg with h | h <;> simp [h, hlt]

/-! ## Aggregator: `ProductionSubmissionSystem.submit_batch`

(production_submission_system.py, lines 310–464.)  Chunks are dispatched to a
thread pool and aggregated in completion order; completion order across
chunks is non-deterministic, so the embedding takes it as the explicit list
`order` of chunk indices.  `att i` gives chunk `i`'s attempt outcomes,
`storeOk i` tells whether `_store_orders_atomic` succeeds for chunk `i`
(a storage failure appends one more error record covering the chunk's stored
orders).  `genId` abstracts `_generate_batch_id` (an md5 hash of the sorted,
comma-joined identifiers).  Final counters, from lines 423–437:
`failed_count = len(all_errors)`,
`duplicate_count = len(imeis) - len(all_orders) - failed_count`,
`duplicates = max(0, duplicate_count)` — on `Nat` the truncated subtraction
is exactly that clamp. -/

structure SubmissionResult where
  total : Nat
  successful : Nat
  failed : Nat
  duplicates : Nat
  orders : List ApiOrder
  errors : List ErrorRecord
  batch_id : String
deriving DecidableEq

/-- One step of the `as_completed` aggregation loop, for the chunk at
index `i` of `batches`. -/
def aggregateStep (maxRetries : Nat) (retryDelay : ℚ) (genId : List String → String)
    (att : Nat → Nat → AttemptOutcome) (storeOk : Nat → Bool)
    (batches : List (List String))
    (acc : List ApiOrder × List ErrorRecord) (i : Nat) :
    List ApiOrder × List ErrorRecord :=
  match batches.get? i with
  | none => acc
  | some batch =>
    let r := submit_batch_with_retry maxRetries retryDelay (genId batch) batch (att i)
    let storeErrs : List ErrorRecord :=
      if r.1 ≠ [] ∧ storeOk i = false then
        [⟨genId batch, r.1.map (fun o => o.imei), "Database storage failed"⟩]
      else []
    (acc.1 ++ r.1, acc.2 ++ r.2.1 ++ storeErrs)

def aggregate_chunks (maxRetries : Nat) (retryDelay : ℚ) (genId : List String → String)
    (att : Nat → Nat → AttemptOutcome) (storeOk : Nat → Bool)
    (batches : List (List String)) (order : List Nat) :
    List ApiOrder × List ErrorRecord :=
  order.foldl (aggregateStep maxRetries retryDelay genId att storeOk batches) ([], [])

def submit_batch (batchSize maxRetries : Nat) (retryDelay : ℚ)
    (genId : List String → String) (imeis : List String)
    (att : Nat → Nat → AttemptOutcome) (storeOk : Nat → Bool)
    (order : List Nat) : SubmissionResult :=
  let batches := chunk_imeis batchSize imeis
  let agg := aggregate_chunks maxRetries retryDelay genId att storeOk batches order
  { total := imeis.length
    successful := agg.1.length
    failed := agg.2.length
    duplicates := imeis.length - agg.1.length - agg.2.length
    orders := agg.1
    errors := agg.2
    batch_id := genId imeis }

/-- A single-identifier batch whose one API call returns both an accepted
order and an error message. -/
def c1CexAtt : Nat → Nat → AttemptOutcome := fun _ _ =>
  .success ⟨[⟨"7", "354403585263898", "Pending"⟩], [], ["Instant service is unavailable"]⟩

/-- Counterexample to C1 as stated: for this call to `submit_batch`
(one identifier; the chunk's response carries one accepted order *and* one
error message, as lines 165–186 allow) the returned result has
`successful + failed + duplicates = 2 ≠ 1 = total`: the `max(0, ...)` clamp
on line 432 breaks the identity whenever `successful + failed > total`. -/
theorem submit_batch_counts_cex :
    ¬ ((submit_batch 1 3 1 (fun _ => "b") ["354403585263898"] c1CexAtt
          (fun _ => true) [0]).successful +
       (submit_batch 1 3 1 (fun _ => "b") ["354403585263898"] c1CexAtt
          (fun _ => true) [0]).failed +
       (submit_batch 1 3 1 (fun _ => "b") ["354403585263898"] c1CexAtt
          (fun _ => true) [0]).duplicates =
       (submit_batch 1 3 1 (fun _ => "b") ["354403585263898"] c1CexAtt
          (fun _ => true) [0]).total) := by
  decide

/-- C1 (amended): `duplicates` is computed as
`max(0, total - successful - failed)`, so the three buckets sum to the input
total exactly when `successful + failed ≤ total`; otherwise the sum
exceeds the total. -/
theorem submit_batch_counts (batchSize maxRetries : Nat) (retryDelay : ℚ)
    (genId : List String → String) (imeis : List String)
    (att : Nat → Nat → AttemptOutcome) (storeOk : Nat → Bool) (order : List Nat)
    (h : (submit_batch batchSize maxRetries retryDelay genId imeis att storeOk
            order).successful +
         (submit_batch batchSize maxRetries retryDelay genId imeis att storeOk
            order).failed ≤
         (submit_batch batchSize maxRetries retryDelay genId imeis att storeOk
            order).total) :
    (submit_batch batchSize maxRetries retryDelay genId imeis att storeOk
       order).successful +
    (submit_batch batchSize maxRetries retryDelay genId imeis att storeOk
       order).failed +
    (submit_batch batchSize maxRetries retryDelay genId imeis att storeOk
       order).duplicates =
    (submit_batch batchSize maxRetries retryDelay genId imeis att storeOk
       order).total := by
  simp only [submit_batch] at h ⊢
  omega

/-- A well-behaved single-identifier batch: one accepted order, no errors. -/
def c1OkAtt : Nat → Nat → AttemptOutcome := fun _ _ =>
  .success ⟨[⟨"7", "354403585263898", "Pending"⟩], [], []⟩

/-- Witness for `submit_batch_counts`: a concrete call where
`successful + failed ≤ total` holds and the buckets sum to the total. -/
theorem submit_batch_counts_witness :
    ((submit_batch 1 3 1 (fun _ => "b") ["354403585263898"] c1OkAtt
        (fun _ => true) [0]).successful +
     (submit_batch 1 3 1 (fun _ => "b") ["354403585263898"] c1OkAtt
        (fun _ => true) [0]).failed ≤
     (submit_batch 1 3 1 (fun _ => "b") ["354403585263898"] c1OkAtt
        (fun _ => true) [0]).total) ∧
    ((submit_batch 1 3 1 (fun _ => "b") ["354403585263898"] c1OkAtt
        (fun _ => true) [0]).successful +
     (submit_batch 1 3 1 (fun _ => "b") ["354403585263898"] c1OkAtt
        (fun _ => true) [0]).failed +
     (submit_batch 1 3 1 (fun _ => "b") ["354403585263898"] c1OkAtt
        (fun _ => true) [0]).duplicates =
     (submit_batch 1 3 1 (fun _ => "b") ["354403585263898"] c1OkAtt
        (fun _ => true) [0]).total) :=
  ⟨by decide, submit_batch_counts 1 3 1 (fun _ => "b") ["354403585263898"] c1OkAtt
      (fun _ => true) [0] (by decide)⟩

/-! ## BatchProcessor retry (batch_processor.py)

`BatchProcessor.process_order` (lines 140–206) and
`BatchProcessor._process_with_retry` (lines 260–281).  A call to
`client.place_imei_order` either returns a response (`orders`, `duplicates`)
or raises `GSMFusionAPIError`; the environment `resp` gives the outcome per
attempt number.  The dataclass `timestamp` field (wall clock) and the fixed
inter-retry sleep are not modelled; `attempts` is the recorded attempt count. -/

structure BatchResult where
  imei : String
  network_id : String
  order_id : Option String
  status : Option String
  code : Option String
  success : Bool
  error : Option String
  attempts : Nat
deriving DecidableEq

inductive OrderCallOutcome where
  | ok (orders : List ApiOrder) (dups : List String)
  | exn (msg : String)
deriving DecidableEq

def process_order (imei network : String) (resp : Nat → OrderCallOutcome)
    (attempt : Nat) : BatchResult :=
  match resp attempt with
  | .ok orders dups =>
    match orders with
    | o :: _ =>
        { imei := imei, network_id := network, order_id := some o.id,
          status := some o.status, code := none, success := true,
          error := none, attempts := attempt }
    | [] =>
        if dups ≠ [] then
          { imei := imei, network_id := network, order_id := none,
            status := none, code := none, success := false,
            error := some "Duplicate IMEI", attempts := attempt }
        else
          { imei := imei, network_id := network, order_id := none,
            status := none, code := none, success := false,
            error := some "Unknown error", attempts := attempt }
  | .exn msg =>
      { imei := imei, network_id := network, order_id := none,
        status := none, code := none, success := false,
        error := some msg, attempts := attempt }

/-- The `for attempt in range(1, self.max_retries + 1)` loop of
`_process_with_retry`, entered at `attempt`; on a non-retryable result or at
the last attempt the current result (Python's `last_result`) is returned. -/
def processRetryGo (m : Nat) (imei network : String) (resp : Nat → OrderCallOutcome) :
    Nat → Nat → Option BatchResult
  | 0, _ => none
  | fuel + 1, attempt =>
    let r := process_order imei network resp attempt
    if r.success then some r
    else if r.error = some "Duplicate IMEI" then some r
    else if attempt < m then processRetryGo m imei network resp fuel (attempt + 1)
    else some r

/-- `_process_with_retry`; `none` is Python's `last_result = None` when the
loop body never runs (`max_retries < 1`). -/
def process_with_retry (m : Nat) (imei network : String)
    (resp : Nat → OrderCallOutcome) : Option BatchResult :=
  if m < 1 then none else processRetryGo m imei network resp m 1

theorem process_order_attempts (imei network : String)
    (resp : Nat → OrderCallOutcome) (attempt : Nat) :
    (process_order imei network resp attempt).attempts = attempt := by
  cases h : resp attempt with
  | ok orders dups =>
    cases orders with
    | nil => by_cases hd : dups ≠ [] <;> simp [process_order, h, hd]
    | cons o os => simp [process_order, h]
  | exn msg => simp [process_order, h]

theorem processRetryGo_late_success (m : Nat) (imei network : String)
    (resp : Nat → OrderCallOutcome) :
    ∀ fuel a, 1 ≤ a → a ≤ m → m - a < fuel →
      (∀ j, a ≤ j → j < m →
        ¬ (process_order imei network resp j).success = true ∧
        (process_order imei network resp j).error ≠ some "Duplicate IMEI") →
      (process_order imei network resp m).success = true →
      processRetryGo m imei network resp fuel a =
        some (process_order imei network resp m) := by
  intro fuel
  induction fuel with
  | zero => intro a _ _ h _ _; omega
  | succ fuel ih =>
    intro a ha1 ham hfuel hfail hsucc
    rcases Nat.lt_or_ge a m with hlt | hge
    · obtain ⟨hns, hnd⟩ := hfail a (le_refl a) hlt
      rw [processRetryGo]
      simp only [if_neg hns, if_neg hnd, if_pos hlt]
      exact ih (a + 1) (by omega) (by omega) (by omega)
        (fun j hj1 hj2 => hfail j (by omega) hj2) hsucc
    · have ham' : a = m := by omega
      subst ham'
      rw [processRetryGo]
      simp only [if_pos hsucc]

/-- C4: retry policy.
(1) Exponential backoff in `_submit_batch_with_retry`: the `i`-th sleep
    performed after a failed attempt (0-based) waits `retryDelay * 2 ^ i`
    (i.e. the `k`-th failed attempt is followed by `base * 2^(k-1)`).
(2) `_process_with_retry`: an order failing retryably on attempts
    `1 .. maxRetries-1` and succeeding at attempt `maxRetries` is recorded
    successful with `attempts = maxRetries`.
(3) `_submit_batch_with_retry`: a chunk failing all `maxRetries` attempts
    returns no orders and a single error record listing exactly the chunk's
    identifiers — none dropped. -/
theorem retry_policy :
    (∀ (m : Nat) (d : ℚ) (bid : String) (batch : List String)
        (att : Nat → AttemptOutcome) (i : Nat),
      i < (submit_batch_with_retry m d bid batch att).2.2.length →
      (submit_batch_with_retry m d bid batch att).2.2.get? i = some (d * 2 ^ i)) ∧
    (∀ (m : Nat) (imei network : String) (resp : Nat → OrderCallOutcome),
      0 < m →
      (∀ j, 1 ≤ j → j < m →
        ¬ (process_order imei network resp j).success = true ∧
        (process_order imei network resp j).error ≠ some "Duplicate IMEI") →
      (process_order imei network resp m).success = true →
      process_with_retry m imei network resp =
        some (process_order imei network resp m) ∧
      (process_order imei network resp m).attempts = m) ∧
    (∀ (m : Nat) (d : ℚ) (bid : String) (batch : List String)
        (att : Nat → AttemptOutcome),
      0 < m →
      (∀ j, j < m → ∃ msg, att j = .apiError msg ∨ att j = .unexpectedError msg) →
      (submit_batch_with_retry m d bid batch att).1 = [] ∧
      (submit_batch_with_retry m d bid batch att).2.1.map (fun e => e.imeis) =
        [batch]) := by
  refine ⟨?_, ?_, ?_⟩
  · intro m d bid batch att i hi
    have := submitRetryGo_sleeps m d bid batch att m 0 i hi
    simpa using this
  · intro m imei network resp hm hfail hsucc
    refine ⟨?_, process_order_attempts imei network resp m⟩
    unfold process_with_retry
    rw [if_neg (by omega)]
    exact processRetryGo_late_success m imei network resp m 1 (le_refl 1) hm
      (by omega) (fun j hj1 hj2 => hfail j hj1 hj2) hsucc
  · intro m d bid batch att hm hfail
    exact submitRetryGo_exhausted m d bid batch att m 0 (by omega) hm
      (fun j _ hj => hfail j hj)

/-- All-failing attempt environment used by the retry-policy witness. -/
def attAllFail : Nat → AttemptOutcome := fun _ => .apiError "timeout"

/-- Order-call environment failing on attempt 1 and succeeding on attempt 2. -/
def respLate : Nat → OrderCallOutcome := fun j =>
  if j = 2 then .ok [⟨"9", "354403585263898", "Pending"⟩] [] else .exn "boom"

/-- Witness for `retry_policy`: concrete instances of all three parts —
the first sleep of an all-failing 3-attempt chunk is `1 * 2 ^ 0`; an order
failing once then succeeding at attempt 2 of 2 is recorded successful with
`attempts = 2`; a 2-attempt chunk failing both times yields no orders and
one error record naming its whole identifier list. -/
theorem retry_policy_witness :
    ((submit_batch_with_retry 3 1 "b" ["354403585263898"] attAllFail).2.2.get? 0 =
      some (1 * 2 ^ 0)) ∧
    (process_with_retry 2 "354403585263898" "47" respLate =
        some (process_order "354403585263898" "47" respLate 2) ∧
      (process_order "354403585263898" "47" respLate 2).attempts = 2) ∧
    ((submit_batch_with_retry 2 1 "b" ["354403585263898"] attAllFail).1 = [] ∧
      (submit_batch_with_retry 2 1 "b" ["354403585263898"] attAllFail).2.1.map
        (fun e => e.imeis) = [["354403585263898"]]) := by
  refine ⟨?_, ?_, ?_⟩
  · exact retry_policy.1 3 1 "b" ["354403585263898"] attAllFail 0 (by decide)
  · exact retry_policy.2.1 2 "354403585263898" "47" respLate (by decide)
      (by
        intro j hj1 hj2
        have hj : j = 1 := by omega
        subst hj
        decide)
      (by decide)
  · exact retry_policy.2.2 2 1 "b" ["354403585263898"] attAllFail (by decide)
      (fun j _ => ⟨"timeout", Or.inl rfl⟩)

/-! ## Persistence adapter (database.py)

The `orders` table (one row per order, `order_id` UNIQUE NOT NULL,
`imei` NOT NULL, `id` the auto-increment row id).  `rowid`/`nextId` model the
SERIAL / AUTOINCREMENT primary key; the `created_at` / `updated_at`
timestamp columns (wall clock) are not modelled.  `DbFault` is the
environment telling whether the backend raises on a call; both insert
functions catch every exception and return `None` (the PostgreSQL path after
`conn.rollback()`, so the store is unchanged). -/

structure OrderRow where
  rowid : Nat
  order_id : Option String
  service_name : Option String
  service_id : Option String
  imei : Option String
  imei2 : Option String
  credits : Option String
  status : Option String
  carrier : Option String
  simlock : Option String
  model : Option String
  fmi : Option String
  order_date : Option String
  result_code : Option String
  result_code_display : Option String
  notes : Option String
  raw_response : Option String
  serial_number : Option String
  meid : Option String
  gsma_status : Option String
  purchase_date : Option String
  applecare : Option String
  tether_policy : Option String
deriving DecidableEq

/-- The dictionary handed to `insert_order`; `status = none` models the
`'status'` key being absent, in which case `.get('status', 'Pending')`
supplies `'Pending'`. -/
structure InsertData where
  order_id : Option String
  service_name : Option String
  service_id : Option String
  imei : Option String
  imei2 : Option String
  credits : Option String
  status : Option String
  carrier : Option String
  simlock : Option String
  model : Option String
  fmi : Option String
  order_date : Option String
  result_code : Option String
  result_code_display : Option String
  notes : Option String
  raw_response : Option String
deriving DecidableEq

structure Store where
  rows : List OrderRow
  nextId : Nat
deriving DecidableEq

inductive DbFault where
  | ok
  | fail (msg : String)
deriving DecidableEq

/-- The row written by the INSERT statement: the 16 listed columns from
`order_data`, the remaining columns NULL. -/
def rowOf (id : Nat) (d : InsertData) : OrderRow :=
  { rowid := id
    order_id := d.order_id
    service_name := d.service_name
    service_id := d.service_id
    imei := d.imei
    imei2 := d.imei2
    credits := d.credits
    status := some (d.status.getD "Pending")
    carrier := d.carrier
    simlock := d.simlock
    model := d.model
    fmi := d.fmi
    order_date := d.order_date
    result_code := d.result_code
    result_code_display := d.result_code_display
    notes := d.notes
    raw_response := d.raw_response
    serial_number := none
    meid := none
    gsma_status := none
    purchase_date := none
    applecare := none
    tether_policy := none }

def hasKey (st : Store) (oid : String) : Bool :=
  st.rows.any (fun r => r.order_id = some oid)

def countKey (st : Store) (oid : String) : Nat :=
  (st.rows.filter (fun r => r.order_id = some oid)).length

/-- `IMEIDatabase._insert_order_sqlite` (database.py, lines 295–330):
`INSERT OR IGNORE` skips the row on any constraint violation (UNIQUE
`order_id` as well as NOT NULL `order_id`/`imei`) leaving `rowcount = 0`,
so the function returns `None`; any exception is caught and `None`
returned. -/
def insert_order_sqlite (st : Store) (d : InsertData) (fault : DbFault) :
    Option Nat × Store :=
  match fault with
  | .fail _ => (none, st)
  | .ok =>
    match d.order_id, d.imei with
    | some oid, some _ =>
      if hasKey st oid then (none, st)
      else (some st.nextId, ⟨st.rows ++ [rowOf st.nextId d], st.nextId + 1⟩)
    | _, _ => (none, st)

/-- `IMEIDatabase._insert_order_postgres` (database.py, lines 230–293):
`ON CONFLICT (order_id) DO NOTHING RETURNING id` yields no row on a key
conflict, so the function returns `None`; a NOT NULL violation (or any other
exception) is caught, the transaction rolled back, and `None` returned. -/
def insert_order_postgres (st : Store) (d : InsertData) (fault : DbFault) :
    Option Nat × Store :=
  match fault with
  | .fail _ => (none, st)
  | .ok =>
    match d.order_id, d.imei with
    | some oid, some _ =>
      if hasKey st oid then (none, st)
      else (some st.nextId, ⟨st.rows ++ [rowOf st.nextId d], st.nextId + 1⟩)
    | _, _ => (none, st)

theorem hasKey_false_of_countKey_zero (st : Store) (oid : String)
    (h : countKey st oid = 0) : hasKey st oid = false := by
  unfold countKey at h
  unfold hasKey
  rw [List.length_eq_zero] at h
  rw [List.any_eq_false]
  intro r hr
  intro hcontra
  have : r ∈ st.rows.filter (fun r => r.order_id = some oid) := by
    rw [List.mem_filter]
    exact ⟨hr, hcontra⟩
  simp [h] at this

theorem countKey_insert_fresh (st : Store) (d : InsertData) (oid : String)
    (h0 : countKey st oid = 0) (hk : d.order_id = some oid)
    (hi : d.imei.isSome = true) :
    countKey (insert_order_sqlite st d .ok).2 oid = 1 := by
  obtain ⟨im, him⟩ := Option.isSome_iff_exists.mp hi
  have hkey := hasKey_false_of_countKey_zero st oid h0
  unfold countKey at h0
  simp only [insert_order_sqlite, hk, him, hkey, Bool.false_eq_true, if_false]
  unfold countKey
  simp only [List.filter_append, List.length_append, h0]
  simp [rowOf, hk]

/-- Both insert paths are `(None, unchanged)` no-ops when the key is
already present. -/
theorem insert_dup_noop (st : Store) (d : InsertData) (k : String)
    (hk : d.order_id = some k) (hkey : hasKey st k = true) :
    insert_order_sqlite st d .ok = (none, st) ∧
    insert_order_postgres st d .ok = (none, st) := by
  constructor
  · cases him : d.imei with
    | none => simp [insert_order_sqlite, hk, him]
    | some im => simp [insert_order_sqlite, hk, him, hkey]
  · cases him : d.imei with
    | none => simp [insert_order_postgres, hk, him]
    | some im => simp [insert_order_postgres, hk, him, hkey]

theorem countKey_insert_dup (st : Store) (d : InsertData) (oid : String)
    (h1 : countKey st oid = 1) (hk : d.order_id = some oid) :
    (insert_order_sqlite st d .ok) = (none, st) := by
  have hkey : hasKey st oid = true := by
    unfold hasKey
    rw [List.any_eq_true]
    unfold countKey at h1
    rcases hfil : st.rows.filter (fun r => r.order_id = some oid) with _ | ⟨r, rs⟩
    · rw [hfil] at h1; simp at h1
    · have : r ∈ st.rows.filter (fun r => r.order_id = some oid) := by
        rw [hfil]; exact List.mem_cons_self r rs
      rw [List.mem_filter] at this
      exact ⟨r, this.1, this.2⟩
  cases him : d.imei with
  | none => simp [insert_order_sqlite, hk, him]
  | some im => simp [insert_order_sqlite, hk, him, hkey]

/-- C2: inserting an already-present natural key is a no-op returning `None`
(no error), on both backends; and any non-empty sequence of inserts all
carrying the same `order_id`, starting from a store without that key, leaves
exactly one stored record for that key. -/
theorem insert_idempotent (st : Store) (d : InsertData) (k : String)
    (ds : List InsertData) :
    (d.order_id = some k → hasKey st k = true →
      insert_order_sqlite st d .ok = (none, st) ∧
      insert_order_postgres st d .ok = (none, st)) ∧
    (countKey st k = 0 → ds ≠ [] →
      (∀ e ∈ ds, e.order_id = some k ∧ e.imei.isSome = true) →
      countKey (ds.foldl (fun s e => (insert_order_sqlite s e .ok).2) st) k = 1) := by
  constructor
  · intro hk hkey
    exact insert_dup_noop st d k hk hkey
  · intro h0 hne hall
    -- once the count reaches 1 further same-key inserts leave it at 1
    have stable : ∀ (es : List InsertData) (s : Store),
        countKey s k = 1 → (∀ e ∈ es, e.order_id = some k ∧ e.imei.isSome = true) →
        countKey (es.foldl (fun s e => (insert_order_sqlite s e .ok).2) s) k = 1 := by
      intro es
      induction es with
      | nil => intro s h1 _; simpa using h1
      | cons e es ih =>
        intro s h1 hall'
        have he := hall' e (List.mem_cons_self e es)
        have step : (insert_order_sqlite s e .ok).2 = s := by
          rw [countKey_insert_dup s e k h1 he.1]
        simp only [List.foldl_cons, step]
        exact ih s h1 (fun x hx => hall' x (List.mem_cons_of_mem e hx))
    cases ds with
    | nil => exact absurd rfl hne
    | cons e es =>
      have he := hall e (List.mem_cons_self e es)
      have h1 : countKey (insert_order_sqlite st e .ok).2 k = 1 :=
        countKey_insert_fresh st e k h0 he.1 he.2
      simp only [List.foldl_cons]
      exact stable es (insert_order_sqlite st e .ok).2 h1
        (fun x hx => hall x (List.mem_cons_of_mem e hx))

/-- A concrete order dictionary for the C2/C10 witnesses. -/
def demoInsert : InsertData :=
  { order_id := some "1464", service_name := none, service_id := some "269"
    imei := some "354403585263898", imei2 := none, credits := none
    status := none, carrier := none, simlock := none, model := none
    fmi := none, order_date := none, result_code := none
    result_code_display := none, notes := none, raw_response := none }

/-- The store after inserting `demoInsert` into the empty store. -/
def demoStore1 : Store := (insert_order_sqlite ⟨[], 1⟩ demoInsert .ok).2

/-- Witness for `insert_idempotent`: starting from the empty store, inserting
the same `order_id` twice stores exactly one record, and re-inserting it into
the store that already holds it is a `(none, unchanged)` no-op on both
backends. -/
theorem insert_idempotent_witness :
    countKey ([demoInsert, demoInsert].foldl
      (fun s e => (insert_order_sqlite s e .ok).2) ⟨[], 1⟩) "1464" = 1 ∧
    insert_order_sqlite demoStore1 demoInsert .ok = (none, demoStore1) ∧
    insert_order_postgres demoStore1 demoInsert .ok = (none, demoStore1) := by
  refine ⟨?_, ?_, ?_⟩
  · exact (insert_idempotent ⟨[], 1⟩ demoInsert "1464" [demoInsert, demoInsert]).2
      (by decide) (by decide) (by decide)
  · exact ((insert_idempotent demoStore1 demoInsert "1464" []).1
      (by decide) (by decide)).1
  · exact ((insert_idempotent demoStore1 demoInsert "1464" []).1
      (by decide) (by decide)).2

/-! ## `IMEIDatabase.update_order_status` (database.py, lines 374–515)

The UPDATE statement is built field by field: `status` is always written;
`result_code` and `result_code_display` only when truthy; each of the 11
`result_data` fields only when `result_data.get(field)` is truthy (present
and non-empty).  `updated_at = CURRENT_TIMESTAMP` is wall clock and not
modelled.  A missing order returns `False` with no write; any exception is
caught, rolled back, and reported as `False`. -/

/-- The result-field map handed to `update_order_status`; a `none` field
models both an absent key and an explicit `None` value (Python's
`result_data.get(field)` is falsy for both).  A `result_data` that is `None`
or empty behaves exactly like the all-`none` map. -/
structure RData where
  carrier : Option String
  model : Option String
  simlock : Option String
  fmi : Option String
  imei2 : Option String
  serial_number : Option String
  meid : Option String
  gsma_status : Option String
  purchase_date : Option String
  applecare : Option String
  tether_policy : Option String
deriving DecidableEq

/-- Python truthiness of an optional string: present and non-empty. -/
def truthy : Option String → Bool
  | some s => ¬ s = ""
  | none => false

/-- The effect of the built UPDATE statement on one matching row. -/
def updateRow (r : OrderRow) (status : String) (rc rcd : Option String)
    (rd : RData) : OrderRow :=
  { r with
    status := some status
    result_code := if truthy rc then rc else r.result_code
    result_code_display := if truthy rcd then rcd else r.result_code_display
    carrier := if truthy rd.carrier then rd.carrier else r.carrier
    model := if truthy rd.model then rd.model else r.model
    simlock := if truthy rd.simlock then rd.simlock else r.simlock
    fmi := if truthy rd.fmi then rd.fmi else r.fmi
    imei2 := if truthy rd.imei2 then rd.imei2 else r.imei2
    serial_number := if truthy rd.serial_number then rd.serial_number
      else r.serial_number
    meid := if truthy rd.meid then rd.meid else r.meid
    gsma_status := if truthy rd.gsma_status then rd.gsma_status
      else r.gsma_status
    purchase_date := if truthy rd.purchase_date then rd.purchase_date
      else r.purchase_date
    applecare := if truthy rd.applecare then rd.applecare else r.applecare
    tether_policy := if truthy rd.tether_policy then rd.tether_policy
      else r.tether_policy }

def update_order_status (st : Store) (oid : String) (status : String)
    (rc rcd : Option String) (rd : RData) (fault : DbFault) : Bool × Store :=
  match fault with
  | .fail _ => (false, st)
  | .ok =>
    if hasKey st oid then
      (true,
       ⟨st.rows.map (fun r =>
          if r.order_id = some oid then updateRow r status rc rcd rd else r),
        st.nextId⟩)
    else (false, st)

/-- C3: `update_order_status` is a partial merge.  The resulting store
updates exactly the rows whose key matches, and on each such row: every
truthy supplied result field is written, every absent-or-empty one keeps the
row's previous value (same for `result_code` / `result_code_display`),
`status` is set to the supplied status, and every other column of the row is
unchanged. -/
theorem update_partial_merge (st : Store) (oid : String) (status : String)
    (rc rcd : Option String) (rd : RData) :
    (update_order_status st oid status rc rcd rd .ok).2.rows =
      st.rows.map (fun r =>
        if r.order_id = some oid then updateRow r status rc rcd rd else r) ∧
    ∀ r : OrderRow,
      ((truthy rd.carrier = false →
          (updateRow r status rc rcd rd).carrier = r.carrier) ∧
       (truthy rd.carrier = true →
          (updateRow r status rc rcd rd).carrier = rd.carrier)) ∧
      ((truthy rd.model = false →
          (updateRow r status rc rcd rd).model = r.model) ∧
       (truthy rd.model = true →
          (updateRow r status rc rcd rd).model = rd.model)) ∧
      ((truthy rd.simlock = false →
          (updateRow r status rc rcd rd).simlock = r.simlock) ∧
       (truthy rd.simlock = true →
          (updateRow r status rc rcd rd).simlock = rd.simlock)) ∧
      ((truthy rd.fmi = false →
          (updateRow r status rc rcd rd).fmi = r.fmi) ∧
       (truthy rd.fmi = true →
          (updateRow r status rc rcd rd).fmi = rd.fmi)) ∧
      ((truthy rd.imei2 = false →
          (updateRow r status rc rcd rd).imei2 = r.imei2) ∧
       (truthy rd.imei2 = true →
          (updateRow r status rc rcd rd).imei2 = rd.imei2)) ∧
      ((truthy rd.serial_number = false →
          (updateRow r status rc rcd rd).serial_number = r.serial_number) ∧
       (truthy rd.serial_number = true →
          (updateRow r status rc rcd rd).serial_number = rd.serial_number)) ∧
      ((truthy rd.meid = false →
          (updateRow r status rc rcd rd).meid = r.meid) ∧
       (truthy rd.meid = true →
          (updateRow r status rc rcd rd).meid = rd.meid)) ∧
      ((truthy rd.gsma_status = false →
          (updateRow r status rc rcd rd).gsma_status = r.gsma_status) ∧
       (truthy rd.gsma_status = true →
          (updateRow r status rc rcd rd).gsma_status = rd.gsma_status)) ∧
      ((truthy rd.purchase_date = false →
          (updateRow r status rc rcd rd).purchase_date = r.purchase_date) ∧
       (truthy rd.purchase_date = true →
          (updateRow r status rc rcd rd).purchase_date = rd.purchase_date)) ∧
      ((truthy rd.applecare = false →
          (updateRow r status rc rcd rd).applecare = r.applecare) ∧
       (truthy rd.applecare = true →
          (updateRow r status rc rcd rd).applecare = rd.applecare)) ∧
      ((truthy rd.tether_policy = false →
          (updateRow r status rc rcd rd).tether_policy = r.tether_policy) ∧
       (truthy rd.tether_policy = true →
          (updateRow r status rc rcd rd).tether_policy = rd.tether_policy)) ∧
      ((truthy rc = false →
          (updateRow r status rc rcd rd).result_code = r.result_code) ∧
       (truthy rc = true →
          (updateRow r status rc rcd rd).result_code = rc)) ∧
      ((truthy rcd = false →
          (updateRow r status rc rcd rd).result_code_display =
            r.result_code_display) ∧
       (truthy rcd = true →
          (updateRow r status rc rcd rd).result_code_display = rcd)) ∧
      (updateRow r status rc rcd rd).status = some status ∧
      (updateRow r status rc rcd rd).rowid = r.rowid ∧
      (updateRow r status rc rcd rd).order_id = r.order_id ∧
      (updateRow r status rc rcd rd).service_name = r.service_name ∧
      (updateRow r status rc rcd rd).service_id = r.service_id ∧
      (updateRow r status rc rcd rd).imei = r.imei ∧
      (updateRow r status rc rcd rd).credits = r.credits ∧
      (updateRow r status rc rcd rd).order_date = r.order_date ∧
      (updateRow r status rc rcd rd).notes = r.notes ∧
      (updateRow r status rc rcd rd).raw_response = r.raw_response := by
  constructor
  · unfold update_order_status
    by_cases h : hasKey st oid
    · simp [h]
    · simp only [Bool.not_eq_true] at h
      simp only [h, Bool.false_eq_true, if_false]
      have : ∀ r ∈ st.rows, ¬ r.order_id = some oid := by
        unfold hasKey at h
        rw [List.any_eq_false] at h
        intro r hr
        have := h r hr
        simpa using this
      conv_lhs => rw [(List.map_id st.rows).symm]
      apply List.map_congr_left
      intro r hr
      simp [this r hr]
  · intro r
    refine ⟨⟨?_, ?_⟩, ⟨?_, ?_⟩, ⟨?_, ?_⟩, ⟨?_, ?_⟩, ⟨?_, ?_⟩, ⟨?_, ?_⟩,
      ⟨?_, ?_⟩, ⟨?_, ?_⟩, ⟨?_, ?_⟩, ⟨?_, ?_⟩, ⟨?_, ?_⟩, ⟨?_, ?_⟩, ⟨?_, ?_⟩,
      rfl, rfl, rfl, rfl, rfl, rfl, rfl, rfl, rfl, rfl⟩ <;>
      (intro h; simp [updateRow, h])

/-- A stored record holding `carrier = "Verizon"`, for the C3 witness. -/
def verizonRow : OrderRow :=
  { rowid := 1, order_id := some "1464", service_name := none
    service_id := some "269", imei := some "354403585263898", imei2 := none
    credits := none, status := some "In Process", carrier := some "Verizon"
    simlock := none, model := none, fmi := none, order_date := none
    result_code := none, result_code_display := none, notes := none
    raw_response := none, serial_number := none, meid := none
    gsma_status := none, purchase_date := none, applecare := none
    tether_policy := none }

/-- A parsed map lacking `carrier` (all fields absent). -/
def noCarrierRD : RData :=
  { carrier := none, model := none, simlock := none, fmi := none
    imei2 := none, serial_number := none, meid := none, gsma_status := none
    purchase_date := none, applecare := none, tether_policy := none }

/-- Witness for `update_partial_merge`: a record with `carrier = "Verizon"`
updated by a map lacking `carrier` still has `carrier = "Verizon"`
afterwards, and its `imei` column is untouched. -/
theorem update_partial_merge_witness :
    (updateRow verizonRow "Completed" none none noCarrierRD).carrier =
      verizonRow.carrier ∧
    (updateRow verizonRow "Completed" none none noCarrierRD).imei =
      verizonRow.imei ∧
    (updateRow verizonRow "Completed" none none noCarrierRD).carrier =
      some "Verizon" := by
  have h := (update_partial_merge ⟨[verizonRow], 2⟩ "1464" "Completed"
    none none noCarrierRD).2 verizonRow
  refine ⟨h.1.1 (by decide), ?_, ?_⟩
  · exact h.2.2.2.2.2.2.2.2.2.2.2.2.2.2.2.2.2.2.1
  · rw [h.1.1 (by decide)]; rfl

/-- C10: `insert_order` never raises — an injected backend failure is caught
(rolled back on the PostgreSQL path) and reported as the same `(None,
unchanged-store)` outcome that a duplicate-key no-op produces, on both
backends, so the two cases are indistinguishable by the call's result. -/
theorem insert_never_raises (st : Store) (d : InsertData) (msg : String) :
    insert_order_postgres st d (.fail msg) = (none, st) ∧
    insert_order_sqlite st d (.fail msg) = (none, st) ∧
    (∀ k, d.order_id = some k → hasKey st k = true →
      insert_order_postgres st d .ok = (none, st) ∧
      insert_order_sqlite st d .ok = (none, st)) := by
  refine ⟨rfl, rfl, ?_⟩
  intro k hk hkey
  exact ⟨(insert_dup_noop st d k hk hkey).2, (insert_dup_noop st d k hk hkey).1⟩

/-- Witness for `insert_never_raises`: on the store already holding
`demoInsert`, a failed insert and a duplicate insert produce the identical
observable outcome `(none, store unchanged)`. -/
theorem insert_never_raises_witness :
    (insert_order_postgres demoStore1 demoInsert (.fail "connection reset") =
      (none, demoStore1) ∧
     insert_order_sqlite demoStore1 demoInsert (.fail "connection reset") =
      (none, demoStore1) ∧
     (∀ k, demoInsert.order_id = some k → hasKey demoStore1 k = true →
       insert_order_postgres demoStore1 demoInsert .ok = (none, demoStore1) ∧
       insert_order_sqlite demoStore1 demoInsert .ok = (none, demoStore1))) ∧
    insert_order_postgres demoStore1 demoInsert .ok = (none, demoStore1) :=
  ⟨insert_never_raises demoStore1 demoInsert "connection reset",
   ((insert_never_raises demoStore1 demoInsert "connection reset").2.2 "1464"
      (by decide) (by decide)).1⟩

/-! ## Reconciliation (web_app.py `sync_and_parse_orders`, manual_sync.py)

`sync_and_parse_orders` (web_app.py, lines 982–1152) selects
`order_id FROM orders WHERE status IN ('Pending', 'In Process', '1', '4')`
and, when none are found, returns `success = True` before the
`GSMFusionClient` is ever constructed.  The second component of the result
counts calls made to the external service.  The per-order parse/update body
of the non-empty branch is not needed by any claim and is summarised by the
`synced` counter. -/

def pendingStatuses : List String := ["Pending", "In Process", "1", "4"]

def pendingOrderIds (st : Store) : List String :=
  st.rows.filterMap (fun r =>
    match r.status with
    | some s => if pendingStatuses.contains s then r.order_id else none
    | none => none)

structure SyncStats where
  total_pending : Nat
  synced : Nat
  completed : Nat
  parsed : Nat
  parse_failures : Nat
deriving DecidableEq

structure SyncOutcome where
  success : Bool
  stats : SyncStats
  errors : List String
deriving DecidableEq

def sync_and_parse_orders (dbOk : Bool) (st : Store)
    (api : List String → List ApiOrder) : SyncOutcome × Nat :=
  if dbOk = false then
    ({ success := false, stats := ⟨0, 0, 0, 0, 0⟩,
       errors := ["Database not available"] }, 0)
  else
    let pending := pendingOrderIds st
    if pending = [] then
      ({ success := true, stats := ⟨0, 0, 0, 0, 0⟩, errors := [] }, 0)
    else
      let orders := api pending
      ({ success := true, stats := ⟨pending.length, orders.length, 0, 0, 0⟩,
         errors := [] }, 1)

/-- Modelled from the spec: `queryByStatus(statuses)` — the Persistence
Adapter's bulk read of work items by status (spec §4.5).  `manual_sync.py`
calls `db.search_orders_by_status([...])` and `validate_integration.py`
requires `def search_orders_by_status` in database.py, but database.py does
not define it; it is modelled here as the rows whose status is in the given
list. -/
def search_orders_by_status (st : Store) (statuses : List String) :
    List OrderRow :=
  st.rows.filter (fun r =>
    match r.status with
    | some s => statuses.contains s
    | none => false)

/-- `manual_sync` (manual_sync.py, lines 16–101): with no pending orders it
prints and returns before the `GSMFusionClient` is constructed.  The result
is `(external calls made, updated_count)`; `updated_count` increments once
per order returned by the one batched `get_imei_orders` call. -/
def manual_sync (st : Store) (api : List String → List ApiOrder) : Nat × Nat :=
  let pending := search_orders_by_status st
    ["Pending", "In Process", "pending", "in process"]
  if pending = [] then (0, 0)
  else
    let ids := pending.filterMap (fun r => r.order_id)
    ((1 : Nat), (api ids).length)

/-- C9: a reconciliation run that finds zero non-terminal work items makes
zero external calls and completes as a successful no-op — for
`sync_and_parse_orders` and for `manual_sync`. -/
theorem reconciliation_noop (st : Store) (api : List String → List ApiOrder) :
    (pendingOrderIds st = [] →
      (sync_and_parse_orders true st api).2 = 0 ∧
      (sync_and_parse_orders true st api).1.success = true ∧
      (sync_and_parse_orders true st api).1.errors = []) ∧
    (search_orders_by_status st
        ["Pending", "In Process", "pending", "in process"] = [] →
      (manual_sync st api).1 = 0) := by
  constructor
  · intro h
    simp [sync_and_parse_orders, h]
  · intro h
    simp [manual_sync, h]

/-- A store whose only record is terminal (`Completed`). -/
def terminalStore : Store :=
  ⟨[{ verizonRow with status := some "Completed" }], 2⟩

/-- Witness for `reconciliation_noop` on a store holding one `Completed`
record: both reconciliation entry points make zero external calls. -/
theorem reconciliation_noop_witness :
    ((sync_and_parse_orders true terminalStore (fun _ => [])).2 = 0 ∧
     (sync_and_parse_orders true terminalStore (fun _ => [])).1.success = true ∧
     (sync_and_parse_orders true terminalStore (fun _ => [])).1.errors = []) ∧
    (manual_sync terminalStore (fun _ => [])).1 = 0 :=
  ⟨(reconciliation_noop terminalStore (fun _ => [])).1 (by decide),
   (reconciliation_noop terminalStore (fun _ => [])).2 (by decide)⟩

/-! ## Result Parser (imei_data_parser.py)

`IMEIDataParser` works on strings; the embedding works on `List Char`.
The extraction pattern is
`^([A-Za-z0-9\s]+?):\s*(.+?)(?=\n[A-Za-z0-9\s]+?:|$)` with
`re.MULTILINE | re.DOTALL`, applied with `findall`.  Its semantics, mirrored
below (`matchAt` / `scanGo`):

* a match attempt succeeds only at a line start (`^` under MULTILINE);
* the lazy header `[A-Za-z0-9\s]+?` followed by `:` can only be the maximal
  run of class characters (`:` is not in the class, so no shorter prefix can
  be followed by `:`);
* `\s*` is greedy but backtracks just enough to leave the value `(.+?)` at
  least one character: the value starts after the whitespace run, or at the
  last character of the text if the run reaches the end;
* the lazy value extends to the first position where the lookahead matches:
  `\n[A-Za-z0-9\s]+?:`, or `$`, which under MULTILINE matches before any
  `'\n'` and at the end — so the first alternative is subsumed but is kept
  for fidelity;
* `findall` scans left to right, resuming after each (non-empty) match. -/

inductive Field where
  | model
  | imei_number
  | serial_number
  | imei2_number
  | meid_number
  | applecare_eligible
  | estimated_purchase_date
  | carrier
  | next_tether_policy
  | current_gsma_status
  | find_my_iphone
  | simlock
deriving DecidableEq

/-- Python `\s` on the ASCII inputs at hand: space, `\t`, `\n`, `\r`,
`\x0b`, `\x0c`. -/
def pyIsSpace (c : Char) : Bool :=
  c = ' ' || c = '\t' || c = '\n' || c = '\r' || c = '\x0B' || c = '\x0C'

/-- The header character class `[A-Za-z0-9\s]`. -/
def headerChar (c : Char) : Bool :=
  c.isAlphanum || pyIsSpace c

/-- Length of the maximal prefix of characters satisfying `p`. -/
def runLen (p : Char → Bool) : List Char → Nat
  | [] => 0
  | c :: cs => if p c then runLen p cs + 1 else 0

/-- `^` under MULTILINE: position 0 or just after a newline. -/
def lineStart (s : List Char) (p : Nat) : Bool :=
  p = 0 || s.get? (p - 1) = some '\n'

def slice (s : List Char) (a b : Nat) : List Char := (s.drop a).take (b - a)

/-- The lookahead alternative `\n[A-Za-z0-9\s]+?:` at position `q`. -/
def lookaheadLabel (s : List Char) (q : Nat) : Bool :=
  s.get? q = some '\n' &&
    (let r := runLen headerChar (s.drop (q + 1))
     decide (1 ≤ r) && s.get? (q + 1 + r) = some ':')

/-- The lookahead alternative `$` under MULTILINE: end of text or before a
newline. -/
def atEOL (s : List Char) (q : Nat) : Bool :=
  decide (s.length ≤ q) || s.get? q = some '\n'

def termAt (s : List Char) (q : Nat) : Bool :=
  lookaheadLabel s q || atEOL s q

/-- First position `≥ q` where the lookahead matches (the end of text always
does); the fuel only bounds the scan. -/
def findTermGo (s : List Char) : Nat → Nat → Nat
  | 0, _ => s.length
  | fuel + 1, q =>
    if s.length ≤ q then s.length
    else if termAt s q then q
    else findTermGo s fuel (q + 1)

def findTerm (s : List Char) (q : Nat) : Nat := findTermGo s (s.length + 1) q

/-- One match attempt of the extraction pattern at position `p`; on success
returns (header capture, value capture, end of match). -/
def matchAt (s : List Char) (p : Nat) : Option (List Char × List Char × Nat) :=
  if lineStart s p then
    let r := runLen headerChar (s.drop p)
    if r = 0 then none
    else if s.get? (p + r) = some ':' then
      let a := p + r + 1
      if s.length ≤ a then none  -- nothing after the colon: `(.+?)` cannot match
      else
        let w := runLen pyIsSpace (s.drop a)
        let v := if a + w < s.length then a + w else s.length - 1
        let q := findTerm s (v + 1)
        some (slice s p (p + r), slice s v q, q)
    else none
  else none

/-- `findall`: left-to-right non-overlapping scan (every match here is
non-empty, so the resume position `max (p+1) q` is just `q`). -/
def scanGo (s : List Char) : Nat → Nat → List (List Char × List Char)
  | 0, _ => []
  | fuel + 1, p =>
    if s.length ≤ p then []
    else
      match matchAt s p with
      | some hvq => (hvq.1, hvq.2.1) :: scanGo s fuel (max (p + 1) hvq.2.2)
      | none => scanGo s fuel (p + 1)

def findallPairs (s : List Char) : List (List Char × List Char) :=
  scanGo s (s.length + 1) 0

/-- Python `str.strip()`. -/
def pyStrip (l : List Char) : List Char :=
  ((l.dropWhile pyIsSpace).reverse.dropWhile pyIsSpace).reverse

def lowerChars (l : List Char) : List Char := l.map Char.toLower

/-- `HEADER_MAPPING` flattened into the `header_to_field` reverse mapping
(all variation strings are distinct, so dict insertion order is
irrelevant). -/
def headerAliases : List (List Char × Field) :=
  [ ("model".toList, .model), ("device model".toList, .model),
    ("model name".toList, .model),
    ("imei number".toList, .imei_number), ("imei".toList, .imei_number),
    ("imei1".toList, .imei_number),
    ("serial number".toList, .serial_number), ("serial".toList, .serial_number),
    ("sn".toList, .serial_number),
    ("imei2 number".toList, .imei2_number), ("imei2".toList, .imei2_number),
    ("imei 2".toList, .imei2_number),
    ("meid number".toList, .meid_number), ("meid".toList, .meid_number),
    ("applecare eligible".toList, .applecare_eligible),
    ("applecare".toList, .applecare_eligible),
    ("apple care".toList, .applecare_eligible),
    ("estimated purchase date".toList, .estimated_purchase_date),
    ("purchase date".toList, .estimated_purchase_date),
    ("bought date".toList, .estimated_purchase_date),
    ("carrier".toList, .carrier), ("network".toList, .carrier),
    ("operator".toList, .carrier),
    ("next tether policy".toList, .next_tether_policy),
    ("tether policy".toList, .next_tether_policy),
    ("policy id".toList, .next_tether_policy),
    ("current gsma status".toList, .current_gsma_status),
    ("gsma status".toList, .current_gsma_status),
    ("blacklist status".toList, .current_gsma_status),
    ("find my iphone".toList, .find_my_iphone), ("fmi".toList, .find_my_iphone),
    ("find my".toList, .find_my_iphone), ("icloud".toList, .find_my_iphone),
    ("simlock".toList, .simlock), ("sim lock".toList, .simlock),
    ("lock status".toList, .simlock) ]

def lookupAlias (key : List Char) : List (List Char × Field) → Option Field
  | [] => none
  | (k, f) :: rest => if k = key then some f else lookupAlias key rest

/-- `IMEIDataParser.normalize_header`: `header.strip().lower()` looked up in
the alias table. -/
def normalize_header (h : List Char) : Option Field :=
  lookupAlias (lowerChars (pyStrip h)) headerAliases

/-- Python `str.split()` (split on whitespace runs, dropping empties). -/
def pySplitGo : Nat → List Char → List (List Char)
  | 0, _ => []
  | _, [] => []
  | fuel + 1, c :: cs =>
    if pyIsSpace c then pySplitGo fuel cs
    else (c :: cs.takeWhile (fun d => !pyIsSpace d)) ::
         pySplitGo fuel (cs.dropWhile (fun d => !pyIsSpace d))

def pySplit (l : List Char) : List (List Char) := pySplitGo (l.length + 1) l

def joinSpace : List (List Char) → List Char
  | [] => []
  | [w] => w
  | w :: ws => w ++ ' ' :: joinSpace ws

/-- `IMEIDataParser.clean_value`: `' '.join(value.split())` then `strip()`
(the strip is a no-op on the joined words but is applied as in the
source). -/
def clean_value (v : List Char) : List Char := pyStrip (joinSpace (pySplit v))

/-- The `IMEIData` dataclass; every field defaults to `None`. -/
structure IMEIData where
  model : Option (List Char) := none
  imei_number : Option (List Char) := none
  serial_number : Option (List Char) := none
  imei2_number : Option (List Char) := none
  meid_number : Option (List Char) := none
  applecare_eligible : Option (List Char) := none
  estimated_purchase_date : Option (List Char) := none
  carrier : Option (List Char) := none
  next_tether_policy : Option (List Char) := none
  current_gsma_status : Option (List Char) := none
  find_my_iphone : Option (List Char) := none
  simlock : Option (List Char) := none
deriving DecidableEq

def IMEIData.empty : IMEIData := {}

def setField (d : IMEIData) (f : Field) (v : List Char) : IMEIData :=
  match f with
  | .model => { d with model := some v }
  | .imei_number => { d with imei_number := some v }
  | .serial_number => { d with serial_number := some v }
  | .imei2_number => { d with imei2_number := some v }
  | .meid_number => { d with meid_number := some v }
  | .applecare_eligible => { d with applecare_eligible := some v }
  | .estimated_purchase_date => { d with estimated_purchase_date := some v }
  | .carrier => { d with carrier := some v }
  | .next_tether_policy => { d with next_tether_policy := some v }
  | .current_gsma_status => { d with current_gsma_status := some v }
  | .find_my_iphone => { d with find_my_iphone := some v }
  | .simlock => { d with simlock := some v }

def getField (d : IMEIData) : Field → Option (List Char)
  | .model => d.model
  | .imei_number => d.imei_number
  | .serial_number => d.serial_number
  | .imei2_number => d.imei2_number
  | .meid_number => d.meid_number
  | .applecare_eligible => d.applecare_eligible
  | .estimated_purchase_date => d.estimated_purchase_date
  | .carrier => d.carrier
  | .next_tether_policy => d.next_tether_policy
  | .current_gsma_status => d.current_gsma_status
  | .find_my_iphone => d.find_my_iphone
  | .simlock => d.simlock

/-- `IMEIData.to_dict`: the fields actually found (the `None` ones are
excluded). -/
def IMEIData.toDict (d : IMEIData) : List (Field × List Char) :=
  ([(Field.model, d.model), (Field.imei_number, d.imei_number),
    (Field.serial_number, d.serial_number), (Field.imei2_number, d.imei2_number),
    (Field.meid_number, d.meid_number),
    (Field.applecare_eligible, d.applecare_eligible),
    (Field.estimated_purchase_date, d.estimated_purchase_date),
    (Field.carrier, d.carrier), (Field.next_tether_policy, d.next_tether_policy),
    (Field.current_gsma_status, d.current_gsma_status),
    (Field.find_my_iphone, d.find_my_iphone),
    (Field.simlock, d.simlock)]).filterMap
    (fun fv => match fv.2 with | some v => some (fv.1, v) | none => none)

/-- The body of the `for header, value in matches` loop of `parse`:
`parsed_data[field_name] = clean_val` — a later assignment to the same
field overwrites an earlier one. -/
def buildStep (d : IMEIData) (hv : List Char × List Char) : IMEIData :=
  match normalize_header hv.1 with
  | some f =>
    let cv := clean_value hv.2
    if cv = [] then d else setField d f cv
  | none => d

def buildData (ms : List (List Char × List Char)) : IMEIData :=
  ms.foldl buildStep IMEIData.empty

/-- The `expected_headers` list of `_preprocess_single_line`, after the
stable sort by length, longest first (the separately built `all_headers`
list on lines 187–189 is never used).  The value is spelled out because the
substitution loop iterates it in exactly this order. -/
def expectedHeadersSorted : List (List Char) :=
  [ "Estimated Purchase Date".toList, "Current GSMA Status".toList,
    "AppleCare Eligible".toList, "Next Tether Policy".toList,
    "Find My iPhone".toList, "Serial Number".toList, "IMEI2 Number".toList,
    "IMEI Number".toList, "MEID Number".toList, "Carrier".toList,
    "SimLock".toList, "Model".toList ]

/-- Case-insensitive prefix match of `hdr` against `rest`. -/
def ciMatches (rest hdr : List Char) : Bool :=
  lowerChars (rest.take hdr.length) = lowerChars hdr

/-- A match attempt of `(?<!^)(\s+)(<header>:)` (IGNORECASE) at position
`p`: not at the string start, a non-empty whitespace run, then the header
and a colon; headers start with a letter, so the greedy `\s+` must consume
the whole run.  Returns the position where the header text starts. -/
def trySubAt (s hdr : List Char) (p : Nat) : Option Nat :=
  if p = 0 then none
  else
    let w := runLen pyIsSpace (s.drop p)
    if 1 ≤ w ∧ ciMatches (s.drop (p + w)) hdr ∧
        s.get? (p + w + hdr.length) = some ':' then
      some (p + w)
    else none

/-- `re.sub` for one header: scan left to right; each match is replaced by
`'\n'` plus the matched header text and colon (group 2, original casing),
dropping the whitespace (group 1); scanning resumes after the colon. -/
def subHeaderGo (s hdr : List Char) : Nat → Nat → List Char
  | 0, _ => []
  | fuel + 1, p =>
    if s.length ≤ p then []
    else
      match trySubAt s hdr p with
      | some hstart =>
          '\n' :: slice s hstart (hstart + hdr.length + 1) ++
            subHeaderGo s hdr fuel (hstart + hdr.length + 1)
      | none =>
          match s.get? p with
          | some c => c :: subHeaderGo s hdr fuel (p + 1)
          | none => []

def subHeader (hdr s : List Char) : List Char :=
  subHeaderGo s hdr (s.length + 1) 0

/-- `IMEIDataParser._preprocess_single_line`: one substitution pass per
expected header, longest first. -/
def preprocess_single_line (s : List Char) : List Char :=
  expectedHeadersSorted.foldl (fun acc h => subHeader h acc) s

/-- `IMEIDataParser.parse`: empty input short-circuits to the empty result;
single-physical-line payloads longer than 100 characters are preprocessed;
then the pattern's matches are folded into an `IMEIData`. -/
def parse (raw : List Char) : IMEIData :=
  if raw = [] then IMEIData.empty
  else
    let data :=
      if raw.contains '\n' = false ∧ 100 < raw.length then
        preprocess_single_line raw
      else raw
    buildData (findallPairs data)

/-- The text the extraction pattern actually runs on:
`parse`'s input after the empty-input short-circuit and the single-line
preprocessing. -/
def effectiveInput (raw : List Char) : List Char :=
  if raw = [] then []
  else if raw.contains '\n' = false ∧ 100 < raw.length then
    preprocess_single_line raw
  else raw

theorem parse_eq_buildData (raw : List Char) :
    parse raw = buildData (findallPairs (effectiveInput raw)) := by
  unfold parse effectiveInput
  by_cases h : raw = []
  · subst h; rfl
  · simp only [if_neg h]

theorem getField_empty (f : Field) : getField IMEIData.empty f = none := by
  cases f <;> rfl

theorem setField_getField (d : IMEIData) (g f : Field) (v : List Char) :
    getField (setField d g v) f = if g = f then some v else getField d f := by
  cases g <;> cases f <;> simp [setField, getField]

/-- The value the match `hv` contributes to field `f`: its cleaned value,
when its header normalizes to `f` and the cleaned value is non-empty. -/
def relevantValue (f : Field) (hv : List Char × List Char) :
    Option (List Char) :=
  match normalize_header hv.1 with
  | some g =>
    if g = f ∧ clean_value hv.2 ≠ [] then some (clean_value hv.2) else none
  | none => none

theorem buildStep_getField (d : IMEIData) (hv : List Char × List Char)
    (f : Field) :
    getField (buildStep d hv) f =
      match relevantValue f hv with
      | some v => some v
      | none => getField d f := by
  unfold buildStep relevantValue
  cases hn : normalize_header hv.1 with
  | none => rfl
  | some g =>
    by_cases hc : clean_value hv.2 = []
    · simp [hc]
    · simp only [hc, if_neg hc, if_false]
      rw [setField_getField]
      by_cases hg : g = f
      · simp [hg, hc]
      · simp [hg, hc]

theorem cons_getLast_some {α : Type} (a : α) (l : List α) :
    ∃ u, (a :: l).getLast? = some u := by
  have h : (a :: l).getLast?.isSome = true := by
    rw [List.getLast?_isSome]
    simp
  exact Option.isSome_iff_exists.mp h

theorem buildData_getField (ms : List (List Char × List Char)) :
    ∀ (d : IMEIData) (f : Field),
      getField (ms.foldl buildStep d) f =
        match (ms.filterMap (relevantValue f)).getLast? with
        | some v => some v
        | none => getField d f := by
  induction ms with
  | nil => intro d f; rfl
  | cons hv ms ih =>
    intro d f
    simp only [List.foldl_cons, List.filterMap_cons]
    cases hrel : relevantValue f hv with
    | none =>
      rw [ih (buildStep d hv) f, buildStep_getField d hv f, hrel]
    | some v =>
      rw [ih (buildStep d hv) f, buildStep_getField d hv f, hrel]
      cases hfm : ms.filterMap (relevantValue f) with
      | nil => simp
      | cons a l =>
        rw [List.getLast?_cons_cons]
        obtain ⟨u, hu⟩ := cons_getLast_some a l
        rw [hu]

/-- C8 (amended): when the same canonical label occurs more than once, the
emitted field map holds the value of the *last* occurrence whose cleaned
value is non-empty (a later empty value does not erase an earlier one) —
not the first occurrence. -/
theorem parse_duplicate_labels (raw : List Char) (f : Field) :
    getField (parse raw) f =
      ((findallPairs (effectiveInput raw)).filterMap (relevantValue f)).getLast? := by
  rw [parse_eq_buildData]
  unfold buildData
  rw [buildData_getField]
  cases h : ((findallPairs (effectiveInput raw)).filterMap
      (relevantValue f)).getLast? with
  | none => simp [getField_empty]
  | some v => rfl

/-- Two occurrences of the canonical `carrier` label. -/
def c8input : List Char := "Carrier: A\nCarrier: B".toList

/-- Counterexample to C8 as stated: on a text where the `carrier` label
occurs twice, `parse` emits the value of the *second* occurrence (`"B"`),
not the first (`"A"`): the loop `parsed_data[field_name] = clean_val`
overwrites. -/
theorem parse_first_occurrence_cex :
    (parse c8input).carrier = some "B".toList ∧
    (parse c8input).carrier ≠ some "A".toList := by
  constructor
  · decide
  · decide

/-- The extraction scenario text from the specification. -/
def c7input : List Char :=
  "Carrier: T-Mobile<br/>Model: iPhone 12<br/>Simlock: Unlocked".toList

/-- Counterexample to C7 as stated: parsing the scenario text yields no
`model` and no `simlock` at all, and the `carrier` value still contains the
HTML fragment `<br/>` — `clean_value` collapses whitespace only and strips
no HTML, and the text (one line, under the 100-character threshold) is
matched as a single `Carrier:` pair. -/
theorem parse_html_cex :
    (parse c7input).model = none ∧
    (parse c7input).simlock = none ∧
    ((parse c7input).carrier.getD []).contains '<' = true := by
  refine ⟨?_, ?_, ?_⟩ <;> decide

/-- C7 (amended): parsing the scenario text yields a field map with the
single entry `carrier ↦ "T-Mobile<br/>Model: iPhone 12<br/>Simlock:
Unlocked"` — the whole remainder of the line, HTML fragments included. -/
theorem parse_html_amended :
    parse c7input =
      { carrier :=
          some "T-Mobile<br/>Model: iPhone 12<br/>Simlock: Unlocked".toList } := by
  decide

/-- C6: the parser is total — `parse` is a function defined on every input
(no exception path exists in its source), the result map carries at most the
12 canonical fields, and the empty input yields the empty field map. -/
theorem parse_total (raw : List Char) :
    parse [] = IMEIData.empty ∧
    (parse raw).toDict.length ≤ 12 ∧
    (IMEIData.empty).toDict = [] := by
  refine ⟨rfl, ?_, rfl⟩
  unfold IMEIData.toDict
  refine le_trans (List.length_filterMap_le _ _) ?_
  simp

end IMEIProc
